import Mathlib

/-!
# TTKDownloader: the download orchestrator `DownloadThreadManager`

A shallow embedding of `TTKModule/TTKCore/downloadNetworkKits/downloadthreadmanager.cpp`.

* The member variables of the class become the fields of the structure
  `DownloadThreadManager`; every member function becomes a function from the
  state before the call to the state after it, together with the list of
  externally visible actions (`Effect`) in the order the code performs them.
* Answers of the outside world (HEAD replies, the result of opening a file,
  what the breakpoint configuration manager reads or whether it can write) are
  explicit arguments.
* `qint64` arithmetic is integer arithmetic reduced to the 64 bit two's
  complement range (`wrap64`), `int` arithmetic to the 32 bit range (`wrap32`);
  division truncates toward zero as in C++.
* A null pointer dereference or an out of range `QList` subscript has no
  defined result: the embedding reports it (`none`) instead of inventing one.
* Declarations that live in headers outside the sources at hand
  (`THREADCOUNT`, `SET_FILE`, the default `tryTimes`, `DownloadBreakPointItem::isEmpty`)
  are parameters, collected in `Config`.
-/

namespace TTK

/-! ## Machine integers -/

/-- Reduction of an integer to the range of `qint64` (two's complement, 64 bits). -/
def wrap64 (x : Int) : Int := (x + 2 ^ 63) % 2 ^ 64 - 2 ^ 63

/-- Reduction of an integer to the range of `int` (two's complement, 32 bits). -/
def wrap32 (x : Int) : Int := (x + 2 ^ 31) % 2 ^ 32 - 2 ^ 31

/-- Lower boundary of segment `i`: `m_totalSize * i / THREADCOUNT` on `qint64`. -/
def startPoint (totalSize : Int) (i : Nat) (threadCount : Int) : Int :=
  Int.tdiv (wrap64 (totalSize * (i : Int))) threadCount

/-- Upper boundary of segment `i`: `m_totalSize * (i + 1) / THREADCOUNT` on `qint64`. -/
def endPoint (totalSize : Int) (i : Nat) (threadCount : Int) : Int :=
  Int.tdiv (wrap64 (totalSize * ((i : Int) + 1))) threadCount

/-! ## Data model -/

/-- The enumeration `DownloadThread::DownloadState`, as far as the manager uses it. -/
inductive DownloadState where
  | D_Stop
  | D_Waiting
  | D_Download
  | D_Pause
  | D_Finished
  deriving DecidableEq, Repr

/-- One breakpoint record: the resume state of a segment. -/
structure DownloadBreakPointItem where
  m_url : String
  m_start : Int
  m_end : Int
  m_ready : Int
  deriving DecidableEq, Repr

/-- The destination file object; only its name is observable here. -/
structure QFile where
  fileName : String
  deriving DecidableEq, Repr

/-- Modelled from the spec: the segment worker `DownloadThread`, whose source is
not at hand. It keeps the arguments of `startDownload(index, url, file, start,
end, ready)`, answers the read accessors from them, and `pause()` / `restart()`
only switch whether its transfer is running. -/
structure DownloadThread where
  index : Nat
  url : String
  file : QFile
  startPoint : Int
  endPoint : Int
  readySize : Int
  running : Bool
  deriving DecidableEq, Repr

/-- Modelled from the spec: `DownloadThread::pause()`. -/
def DownloadThread.pause (t : DownloadThread) : DownloadThread :=
  { t with running := false }

/-- Modelled from the spec: `DownloadThread::restart()`. -/
def DownloadThread.restart (t : DownloadThread) : DownloadThread :=
  { t with running := true }

/-- The record `pause()` builds from a worker's accessors. -/
def DownloadThread.snapshot (t : DownloadThread) : DownloadBreakPointItem :=
  { m_url := t.url, m_start := t.startPoint, m_end := t.endPoint, m_ready := t.readySize }

/-- The member variables of `DownloadThreadManager`. -/
structure DownloadThreadManager where
  m_file : Option QFile
  m_state : DownloadState
  m_threads : List DownloadThread
  m_totalSize : Int
  m_readySize : Int
  m_runningCount : Int
  deriving DecidableEq, Repr

/-- What the headers outside the sources at hand fix. -/
structure Config where
  THREADCOUNT : Int
  SET_FILE : String
  tryTimes : Nat
  isEmpty : DownloadBreakPointItem → Bool

/-- Externally visible actions, in program order. -/
inductive Effect where
  | stateChanged (name : String)
  | updateFileInfoChanged (fileName : String) (size : Int)
  | progressChanged (ready : Int) (total : Int)
  | downloadingFinished
  | qDebug (msg : String)
  | qDebugIndex (msg : String) (index : Int)
  | headRequest (url : String)
  | readConfig (key : String)
  | readBreakPointConfig
  | writeConfig (key : String)
  | writeBreakPointConfig (records : List DownloadBreakPointItem)
  | fileOpen (name : String)
  | fileResize (name : String) (size : Int)
  | fileFlush (name : String)
  | fileClose (name : String)
  | fileDelete (name : String)
  | fileRemove (name : String)
  | deleteThreads
  | startDownload (index : Nat) (url : String) (file : String)
      (startPoint : Int) (endPoint : Int) (readySize : Int)
  | threadPause (position : Nat)
  | threadRestart (position : Nat)
  deriving DecidableEq, Repr

/-! ## `getFileSize` -/

/-- Outcome of one HEAD attempt. -/
inductive HeadReply where
  | noReply
  | error
  | ok (contentLength : Int)
  deriving DecidableEq, Repr

/-- Whether an attempt got through. -/
def HeadReply.succeeded : HeadReply → Bool
  | .ok _ => true
  | _ => false

/-- The loop `while(tryTimes--)` of `getFileSize`: `made` attempts are behind us,
`heads k` is the outcome of attempt number `k`. Returns `size` and the number of
attempts made in total. -/
def getFileSizeLoop (heads : Nat → HeadReply) : Nat → Nat → Int × Nat
  | 0, made => (-1, made)
  | tryTimes + 1, made =>
    match heads made with
    | .noReply => getFileSizeLoop heads tryTimes (made + 1)
    | .error => getFileSizeLoop heads tryTimes (made + 1)
    | .ok contentLength => (contentLength, made + 1)

/-- `DownloadThreadManager::getFileSize(url, tryTimes)` for `tryTimes ≥ 0`. -/
def getFileSize (heads : Nat → HeadReply) (tryTimes : Nat) : Int × Nat :=
  getFileSizeLoop heads tryTimes 0

/-! ## `downloadFile` -/

/-- Answers of the outside world during one call of `downloadFile`. -/
structure StartEnv where
  /-- outcome of the k-th HEAD attempt -/
  heads : Nat → HeadReply
  /-- the value of `QUrl(url).path()` -/
  path : String
  /-- result of `manager.readConfig(fileName + SET_FILE)` -/
  readConfigOk : Bool
  /-- what `manager.readBreakPointConfig(records)` delivers -/
  stored : List DownloadBreakPointItem
  /-- result of `m_file->open(QFile::WriteOnly)` -/
  openOk : Bool

/-- The search behind `QString::lastIndexOf(QLatin1Char)`. -/
def lastIndexOfAux (c : Char) : List Char → Nat → Int → Int
  | [], _, found => found
  | x :: xs, i, found => lastIndexOfAux c xs (i + 1) (if x = c then (i : Int) else found)

/-- Position of the last occurrence of `c`, or `-1`. -/
def lastIndexOf (s : List Char) (c : Char) : Int := lastIndexOfAux c s 0 (-1)

/-- The file name taken from the path of the url (the branch without `DOWNLOAD_WINEXTRAS`). -/
def fileNameOf (ourPath : String) : String :=
  let slash := lastIndexOf ourPath.data '/'
  if slash = -1 then ourPath else String.mk (ourPath.data.drop (slash + 1).toNat)

/-- The records `downloadFile` works with: read only when `readConfig` succeeds. -/
def loadRecords (env : StartEnv) : List DownloadBreakPointItem :=
  if env.readConfigOk then env.stored else []

/-- The loop `for(int i=0; i<THREADCOUNT; ++i)` of `downloadFile`, with `n`
iterations to go at index `i`. The flag of the result is `false` when
`records[i]` was evaluated outside the list; the workers started before that
are still reported. -/
def threadLoop (cfg : Config) (url : String) (file : QFile) (totalSize : Int)
    (records : List DownloadBreakPointItem) :
    Nat → Nat → List DownloadThread → List Effect → List DownloadThread × List Effect × Bool
  | 0, _, threads, trace => (threads, trace, true)
  | n + 1, i, threads, trace =>
    let startPoint0 := startPoint totalSize i cfg.THREADCOUNT
    let endPoint0 := endPoint totalSize i cfg.THREADCOUNT
    let readySize0 : Int := 0
    if records.isEmpty then
      threadLoop cfg url file totalSize records n (i + 1)
        (threads ++ [⟨i, url, file, startPoint0, endPoint0, readySize0, true⟩])
        (trace ++ [.startDownload i url file.fileName startPoint0 endPoint0 readySize0])
    else
      match records[i]? with
      | none => (threads, trace, false)
      | some item =>
        let startPoint1 := if !cfg.isEmpty item then item.m_start else startPoint0
        let endPoint1 := if !cfg.isEmpty item then item.m_end else endPoint0
        let readySize1 := if !cfg.isEmpty item then item.m_ready else readySize0
        threadLoop cfg url file totalSize records n (i + 1)
          (threads ++ [⟨i, url, file, startPoint1, endPoint1, readySize1, true⟩])
          (trace ++ [.startDownload i url file.fileName startPoint1 endPoint1 readySize1])

/-- `DownloadThreadManager::downloadFile(url)`. The first component is the
returned value, or `none` when the loop subscripted `records` out of range. -/
def downloadFile (cfg : Config) (env : StartEnv) (url : String) (s : DownloadThreadManager) :
    Option Bool × DownloadThreadManager × List Effect :=
  let t0 : List Effect := [.stateChanged "D_Waiting"]
  if s.m_state = .D_Download then
    (some false, s, t0 ++ [.qDebug "Current is downloading a file"])
  else
    let s1 := { s with m_state := .D_Waiting }
    if cfg.THREADCOUNT < 1 ∨ cfg.THREADCOUNT > 15 then
      (some false, s1, t0 ++ [.qDebug "Download thread count error"])
    else
      let probe := getFileSize env.heads cfg.tryTimes
      let s2 := { s1 with m_totalSize := probe.1 }
      let t2 := t0 ++ List.replicate probe.2 (.headRequest url)
      if probe.1 = -1 then
        (some false, s2, t2 ++ [.qDebug "Download file size error"])
      else
        let fileName := fileNameOf env.path
        let records := loadRecords env
        let t3 := t2 ++ [.updateFileInfoChanged fileName probe.1,
                         .readConfig (fileName ++ cfg.SET_FILE)]
                     ++ (if env.readConfigOk then [.readBreakPointConfig] else [])
                     ++ [.fileOpen fileName]
        let s3 := { s2 with m_readySize := 0, m_file := some ⟨fileName⟩ }
        if !env.openOk then
          (some false, { s3 with m_file := none },
            t3 ++ [.fileClose fileName, .qDebug "Can not open file : ", .fileDelete fileName])
        else
          let t5 := t3 ++ [.fileResize fileName probe.1, .deleteThreads]
          let r := threadLoop cfg url ⟨fileName⟩ probe.1 records cfg.THREADCOUNT.toNat 0 [] []
          if r.2.2 then
            (some true,
              { s3 with m_threads := r.1, m_state := .D_Download,
                        m_runningCount := cfg.THREADCOUNT },
              t5 ++ r.2.1 ++ [.stateChanged "D_Download"])
          else
            (none, { s3 with m_threads := r.1 }, t5 ++ r.2.1)

/-! ## The other member functions -/

/-- `DownloadThreadManager::downloadingFinish()`; `none` when `m_file` is null,
which the code dereferences. -/
def downloadingFinish (cfg : Config) (s : DownloadThreadManager) :
    Option (DownloadThreadManager × List Effect) :=
  match s.m_file with
  | none => none
  | some f =>
    some ({ s with m_file := none, m_state := .D_Finished, m_threads := [] },
      [.fileFlush f.fileName, .fileClose f.fileName, .fileDelete f.fileName,
       .fileRemove (f.fileName ++ cfg.SET_FILE), .deleteThreads,
       .stateChanged "D_Finished", .downloadingFinished])

/-- `DownloadThreadManager::pause()`; `writeOk` is the result of
`manager.writeConfig(...)`, consulted only when `m_file` is set. -/
def pause (cfg : Config) (writeOk : Bool) (s : DownloadThreadManager) :
    DownloadThreadManager × List Effect :=
  if s.m_state ≠ .D_Download ∧ s.m_state ≠ .D_Waiting then
    (s, [.qDebug "Current is not downloading"])
  else
    let threads := s.m_threads.map DownloadThread.pause
    let records := threads.map DownloadThread.snapshot
    let s1 := { s with m_state := .D_Pause, m_threads := threads }
    let t1 : List Effect :=
      [.stateChanged "D_Pause"] ++ (List.range s.m_threads.length).map .threadPause
    match s.m_file with
    | none => (s1, t1)
    | some f =>
      (s1, t1 ++ [.writeConfig (f.fileName ++ cfg.SET_FILE)]
              ++ (if writeOk then [.writeBreakPointConfig records] else []))

/-- `DownloadThreadManager::restart()`. -/
def restart (s : DownloadThreadManager) : DownloadThreadManager × List Effect :=
  if s.m_state ≠ .D_Pause then
    (s, [.qDebug "Current is not paused"])
  else
    ({ s with m_state := .D_Download, m_threads := s.m_threads.map DownloadThread.restart },
      [.stateChanged "D_Download"] ++ (List.range s.m_threads.length).map .threadRestart)

/-- `DownloadThreadManager::finishedSlot(index)`. The counter `m_runningCount`
is an `int` (it is assigned the `int` constant `THREADCOUNT`); `m_runningCount--`
is the decrement on 32 bits. -/
def finishedSlot (cfg : Config) (index : Int) (s : DownloadThreadManager) :
    Option (DownloadThreadManager × List Effect) :=
  let s1 := { s with m_runningCount := wrap32 (s.m_runningCount - 1) }
  let t1 : List Effect := [.qDebugIndex "finished" index]
  if s1.m_runningCount = 0 ∧ s1.m_state = .D_Download then
    (downloadingFinish cfg s1).map (fun r => (r.1, t1 ++ r.2))
  else
    some (s1, t1)

/-- `DownloadThreadManager::progressChangedSlot()`. -/
def progressChangedSlot (s : DownloadThreadManager) : DownloadThreadManager × List Effect :=
  let ready := s.m_threads.foldl (fun acc t => wrap64 (acc + t.readySize)) 0
  ({ s with m_readySize := ready }, [.progressChanged ready s.m_totalSize])

/-- `DownloadThreadManager::errorSlot(index, errorString)`. -/
def errorSlot (index : Int) (errorString : String) (s : DownloadThreadManager) :
    DownloadThreadManager × List Effect :=
  if index < 0 ∨ index ≥ (s.m_threads.length : Int) then
    (s, [])
  else
    ({ s with m_threads := s.m_threads.modify DownloadThread.pause index.toNat },
      [.threadPause index.toNat, .qDebugIndex errorString index])

/-! ## Sequences of calls -/

/-- A call arriving at the manager, with the answers of the outside world it needs. -/
inductive Op where
  | downloadFile (env : StartEnv) (url : String)
  | pause (writeOk : Bool)
  | restart
  | finishedSlot (index : Int)
  | progressChangedSlot
  | errorSlot (index : Int) (errorString : String)

/-- The state after one call; `none` when the call has no defined result. -/
def step (cfg : Config) (s : DownloadThreadManager) : Op → Option DownloadThreadManager
  | .downloadFile env url =>
    match downloadFile cfg env url s with
    | (some _, s1, _) => some s1
    | (none, _, _) => none
  | .pause writeOk => some (pause cfg writeOk s).1
  | .restart => some (restart s).1
  | .finishedSlot index => (finishedSlot cfg index s).map Prod.fst
  | .progressChangedSlot => some (progressChangedSlot s).1
  | .errorSlot index errorString => some (errorSlot index errorString s).1

/-- The state after a sequence of calls. -/
def run (cfg : Config) : DownloadThreadManager → List Op → Option DownloadThreadManager
  | s, [] => some s
  | s, op :: ops =>
    match step cfg s op with
    | none => none
    | some s1 => run cfg s1 ops

/-- The state the constructor leaves: no file, `D_Stop`, no workers. The three
counters are not initialised by it and may hold anything. -/
def initial (totalSize readySize runningCount : Int) : DownloadThreadManager :=
  { m_file := none, m_state := .D_Stop, m_threads := [],
    m_totalSize := totalSize, m_readySize := readySize, m_runningCount := runningCount }

/-! ## Reference notions used to state the properties -/

/-- The boundary the partition is meant to have: the exact quotient. -/
def boundary (totalSize : Int) (k : Nat) (T : Nat) : Int := totalSize * (k : Int) / (T : Int)

/-- The worker the loop starts at index `i` from the computed partition. -/
def freshThread (cfg : Config) (url : String) (file : QFile) (totalSize : Int) (i : Nat) :
    DownloadThread :=
  ⟨i, url, file, startPoint totalSize i cfg.THREADCOUNT, endPoint totalSize i cfg.THREADCOUNT, 0, true⟩

/-- The worker the loop starts at index `i` from a stored record. -/
def resumedThread (url : String) (file : QFile) (item : DownloadBreakPointItem) (i : Nat) :
    DownloadThread :=
  ⟨i, url, file, item.m_start, item.m_end, item.m_ready, true⟩

/-- The worker the loop starts at index `i` when the subscript yields `item`. -/
def chosenThread (cfg : Config) (url : String) (file : QFile) (totalSize : Int)
    (item : DownloadBreakPointItem) (i : Nat) : DownloadThread :=
  if cfg.isEmpty item then freshThread cfg url file totalSize i else resumedThread url file item i

/-- The call `thread->startDownload(...)` that creates the worker `t`. -/
def startEffect (t : DownloadThread) : Effect :=
  .startDownload t.index t.url t.file.fileName t.startPoint t.endPoint t.readySize

/-- A build with `THREADCOUNT = 4`; an item counts as empty when all three numbers are `-1`. -/
def sampleConfig : Config :=
  { THREADCOUNT := 4, SET_FILE := ".cfg", tryTimes := 3,
    isEmpty := fun item => item.m_start == -1 && item.m_end == -1 && item.m_ready == -1 }

/-- A build whose `THREADCOUNT` is outside `1..15`. -/
def zeroThreadConfig : Config := { sampleConfig with THREADCOUNT := 0 }

/-- A build with two workers. -/
def twoThreadConfig : Config := { sampleConfig with THREADCOUNT := 2 }

/-- A world where the server answers the first HEAD with 1000 bytes, no breakpoint
file exists and the destination opens. -/
def freshEnv : StartEnv :=
  { heads := fun _ => .ok 1000, path := "/pub/file.bin", readConfigOk := false,
    stored := [], openOk := true }

/-- As `freshEnv`, but a breakpoint file with a single record is found. -/
def shortRecordsEnv : StartEnv :=
  { freshEnv with readConfigOk := true, stored := [⟨"http://host/pub/file.bin", 0, 250, 100⟩] }

/-- As `freshEnv`, but a breakpoint file with four records is found; the third is empty. -/
def resumeEnv : StartEnv :=
  { freshEnv with
    readConfigOk := true
    stored := [⟨"u", 0, 250, 100⟩, ⟨"u", 260, 490, 30⟩, ⟨"", -1, -1, -1⟩, ⟨"u", 750, 1000, 1⟩] }

/-- A world where every HEAD attempt fails. -/
def probeFailEnv : StartEnv := { freshEnv with heads := fun _ => .error }

/-- A world where the destination cannot be opened. -/
def openFailEnv : StartEnv := { freshEnv with openOk := false }

/-- A session in progress: two workers on an open file. -/
def downloadingState : DownloadThreadManager :=
  { m_file := some ⟨"file.bin"⟩, m_state := .D_Download,
    m_threads := [⟨0, "u", ⟨"file.bin"⟩, 0, 500, 120, true⟩, ⟨1, "u", ⟨"file.bin"⟩, 500, 1000, 40, true⟩],
    m_totalSize := 1000, m_readySize := 160, m_runningCount := 2 }

/-- A paused session: as `downloadingState`, after `pause()`. -/
def pausedState : DownloadThreadManager :=
  { downloadingState with
    m_state := .D_Pause
    m_threads := downloadingState.m_threads.map DownloadThread.pause }

/-- A state in which the last worker is about to finish but no file is set. -/
def danglingState : DownloadThreadManager :=
  { downloadingState with m_file := none, m_runningCount := 1 }

/-- Calls in order: `pause()` does not arrive while the state is `D_Waiting`. -/
def pauseAllowed (s : DownloadThreadManager) : Op → Bool
  | .pause _ => decide (s.m_state ≠ .D_Waiting)
  | _ => true

/-- Calls in order: the last running worker does not finish while the session is
paused, that is no `finishedSlot` arrives in `D_Pause` with running count `1`. -/
def finishAllowed (s : DownloadThreadManager) : Op → Bool
  | .finishedSlot _ => decide (¬ (s.m_state = .D_Pause ∧ s.m_runningCount = 1))
  | _ => true

/-- Every call of the sequence passes `allowed` in the state it arrives in. -/
def admissible (allowed : DownloadThreadManager → Op → Bool) (cfg : Config) :
    DownloadThreadManager → List Op → Bool
  | _, [] => true
  | s, op :: ops =>
    allowed s op &&
      (match step cfg s op with
       | none => true
       | some s1 => admissible allowed cfg s1 ops)

/-- A session that is downloading or paused has its file and all its workers. -/
def FileInv (cfg : Config) (s : DownloadThreadManager) : Prop :=
  (s.m_state = .D_Download ∨ s.m_state = .D_Pause) →
    s.m_file ≠ none ∧ (s.m_threads.length : Int) = cfg.THREADCOUNT

/-- A session that is downloading or paused still has a worker running. -/
def CountInv (s : DownloadThreadManager) : Prop :=
  (s.m_state = .D_Download ∨ s.m_state = .D_Pause) →
    0 < s.m_runningCount ∧ s.m_runningCount < 2 ^ 31

/-! ## Properties -/

/-- A value inside the non-negative `qint64` range is not changed by the reduction. -/
theorem wrap64_of_fits (x : Int) (h1 : 0 ≤ x) (h2 : x < 2 ^ 63) : wrap64 x = x := by
  unfold wrap64
  rw [Int.emod_eq_of_lt] <;> omega

/-- Without overflow the computed lower boundary is the exact quotient. -/
theorem startPoint_eq_boundary (totalSize : Int) (T i : Nat) (h0 : 0 ≤ totalSize)
    (hfit : totalSize * (T : Int) < 2 ^ 63) (hi : i ≤ T) :
    startPoint totalSize i (T : Int) = boundary totalSize i T := by
  have hiT : (i : Int) ≤ (T : Int) := by exact_mod_cast hi
  have hle : totalSize * (i : Int) ≤ totalSize * (T : Int) :=
    mul_le_mul_of_nonneg_left hiT h0
  have hnn : 0 ≤ totalSize * (i : Int) := mul_nonneg h0 (by positivity)
  unfold startPoint boundary
  rw [wrap64_of_fits _ hnn (lt_of_le_of_lt hle hfit)]
  exact Int.tdiv_eq_ediv hnn (by positivity)

/-- Without overflow the computed upper boundary is the exact quotient. -/
theorem endPoint_eq_boundary (totalSize : Int) (T i : Nat) (h0 : 0 ≤ totalSize)
    (hfit : totalSize * (T : Int) < 2 ^ 63) (hi : i + 1 ≤ T) :
    endPoint totalSize i (T : Int) = boundary totalSize (i + 1) T := by
  have h := startPoint_eq_boundary totalSize T (i + 1) h0 hfit hi
  unfold startPoint at h
  unfold endPoint
  rw [← h]
  push_cast
  rfl

/-- The exact boundaries grow with the index. -/
theorem boundary_mono (totalSize : Int) (T : Nat) (h0 : 0 ≤ totalSize) (hT : 1 ≤ T)
    (i j : Nat) (hij : i ≤ j) : boundary totalSize i T ≤ boundary totalSize j T := by
  unfold boundary
  apply Int.ediv_le_ediv (by exact_mod_cast hT)
  exact mul_le_mul_of_nonneg_left (by exact_mod_cast hij) h0

/-- The boundary of index zero is zero. -/
theorem boundary_zero (totalSize : Int) (T : Nat) : boundary totalSize 0 T = 0 := by
  simp [boundary]

/-- The boundary of index `T` is the total size. -/
theorem boundary_last (totalSize : Int) (T : Nat) (hT : 1 ≤ T) :
    boundary totalSize T T = totalSize := by
  unfold boundary
  exact Int.mul_ediv_cancel _ (by exact_mod_cast (by omega : T ≠ 0))

/-- Every offset below the boundary of index `k` lies in one of the first `k` segments. -/
theorem boundary_cover (totalSize : Int) (T : Nat) (x : Int) (hx0 : 0 ≤ x) :
    ∀ k : Nat, x < boundary totalSize k T →
      ∃ i, i < k ∧ boundary totalSize i T ≤ x ∧ x < boundary totalSize (i + 1) T := by
  intro k
  induction k with
  | zero =>
    intro h
    rw [boundary_zero] at h
    omega
  | succ k ih =>
    intro h
    by_cases hk : x < boundary totalSize k T
    · obtain ⟨i, hi, h1, h2⟩ := ih hk
      exact ⟨i, by omega, h1, h2⟩
    · exact ⟨k, by omega, by omega, h⟩

/-- C1 (amended): partition coverage of `downloadFile` when no breakpoint record
overrides a segment. For every total size `totalSize ≥ 0` and worker count `T ≥ 1`
(in particular `1 ≤ T ≤ 15`) such that `totalSize * T` still fits `qint64`, the
bounds the loop computes satisfy: `startPoint 0 = 0`, `endPoint (T-1) = totalSize`,
`endPoint i = startPoint (i+1)` for `i < T-1`, `startPoint i ≤ endPoint i`; an
offset lies in `[0, totalSize)` exactly when it lies in the half-open range of
some segment, and it lies in at most one of them. -/
theorem partition_coverage (totalSize : Int) (T : Nat) (h0 : 0 ≤ totalSize) (h1 : 1 ≤ T)
    (hfit : totalSize * (T : Int) < 2 ^ 63) :
    startPoint totalSize 0 (T : Int) = 0
    ∧ endPoint totalSize (T - 1) (T : Int) = totalSize
    ∧ (∀ i, i + 1 < T → endPoint totalSize i (T : Int) = startPoint totalSize (i + 1) (T : Int))
    ∧ (∀ i, i < T → startPoint totalSize i (T : Int) ≤ endPoint totalSize i (T : Int))
    ∧ (∀ x : Int, (0 ≤ x ∧ x < totalSize) ↔
        ∃ i, i < T ∧ startPoint totalSize i (T : Int) ≤ x ∧ x < endPoint totalSize i (T : Int))
    ∧ (∀ (x : Int) (i j : Nat), i < T → j < T →
        startPoint totalSize i (T : Int) ≤ x → x < endPoint totalSize i (T : Int) →
        startPoint totalSize j (T : Int) ≤ x → x < endPoint totalSize j (T : Int) → i = j) := by
  have hs : ∀ i, i ≤ T → startPoint totalSize i (T : Int) = boundary totalSize i T :=
    fun i hi => startPoint_eq_boundary totalSize T i h0 hfit hi
  have he : ∀ i, i < T → endPoint totalSize i (T : Int) = boundary totalSize (i + 1) T :=
    fun i hi => endPoint_eq_boundary totalSize T i h0 hfit hi
  have hm := boundary_mono totalSize T h0 h1
  refine ⟨?_, ?_, ?_, ?_, ?_, ?_⟩
  · rw [hs 0 (by omega), boundary_zero]
  · rw [he (T - 1) (by omega), show T - 1 + 1 = T by omega, boundary_last totalSize T h1]
  · intro i hi
    rw [he i (by omega), hs (i + 1) (by omega)]
  · intro i hi
    rw [he i hi, hs i (by omega)]
    exact hm i (i + 1) (by omega)
  · intro x
    constructor
    · rintro ⟨hx0, hx1⟩
      rw [← boundary_last totalSize T h1] at hx1
      obtain ⟨i, hi, ha, hb⟩ := boundary_cover totalSize T x hx0 T hx1
      exact ⟨i, hi, by rw [hs i (by omega)]; exact ha, by rw [he i hi]; exact hb⟩
    · rintro ⟨i, hi, ha, hb⟩
      rw [hs i (by omega)] at ha
      rw [he i hi] at hb
      have hz := hm 0 i (by omega)
      rw [boundary_zero] at hz
      have hl := hm (i + 1) T (by omega)
      rw [boundary_last totalSize T h1] at hl
      exact ⟨by omega, by omega⟩
  · intro x i j hi hj ai bi aj bj
    rw [hs i (by omega)] at ai
    rw [he i hi] at bi
    rw [hs j (by omega)] at aj
    rw [he j hj] at bj
    by_contra hne
    rcases Nat.lt_or_gt_of_ne hne with h | h
    · have := hm (i + 1) j (by omega)
      omega
    · have := hm (j + 1) i (by omega)
      omega

/-- Use of C1 at `totalSize = 10`, `T = 4`: the ranges are `[0,2) [2,5) [5,7) [7,10)`. -/
theorem partition_coverage_witness :
    (0 : Int) ≤ 10 ∧ 1 ≤ 4 ∧ (10 : Int) * ((4 : Nat) : Int) < 2 ^ 63
    ∧ startPoint 10 0 ((4 : Nat) : Int) = 0
    ∧ endPoint 10 (4 - 1) ((4 : Nat) : Int) = 10
    ∧ (List.range 4).map (fun i => (startPoint 10 i 4, endPoint 10 i 4))
        = [(0, 2), (2, 5), (5, 7), (7, 10)] :=
  ⟨by decide, by decide, by decide,
    (partition_coverage 10 4 (by decide) (by decide) (by decide)).1,
    (partition_coverage 10 4 (by decide) (by decide) (by decide)).2.1,
    by decide⟩

/-- Counterexample to C1 as stated: with `totalSize = 2^62` (a valid `qint64`)
and `T = 2` the product `totalSize * 2` leaves the `qint64` range and the last
upper boundary is `-2^62`, not `totalSize`. -/
theorem partition_coverage_overflow :
    ¬ (∀ (totalSize : Int) (T : Nat), 0 ≤ totalSize → totalSize < 2 ^ 63 → 1 ≤ T → T ≤ 15 →
        startPoint totalSize 0 (T : Int) = 0
        ∧ endPoint totalSize (T - 1) (T : Int) = totalSize
        ∧ (∀ i, i + 1 < T →
            endPoint totalSize i (T : Int) = startPoint totalSize (i + 1) (T : Int))
        ∧ (∀ i, i < T → startPoint totalSize i (T : Int) ≤ endPoint totalSize i (T : Int))) := by
  intro h
  have h2 := (h (2 ^ 62) 2 (by decide) (by decide) (by decide) (by decide)).2.1
  revert h2
  decide

/-- When no attempt in the window succeeds the loop uses all its tries and keeps `-1`. -/
theorem getFileSizeLoop_all_fail (heads : Nat → HeadReply) :
    ∀ (t made : Nat), (∀ k, made ≤ k → k < made + t → (heads k).succeeded = false) →
      getFileSizeLoop heads t made = (-1, made + t) := by
  intro t
  induction t with
  | zero => intro made _; simp [getFileSizeLoop]
  | succ t ih =>
    intro made h
    have h0 := h made (le_refl _) (by omega)
    have hrest := ih (made + 1) (fun k h1 h2 => h k (by omega) (by omega))
    unfold getFileSizeLoop
    cases hh : heads made with
    | noReply => simp only []; rw [hrest]; congr 1; omega
    | error => simp only []; rw [hrest]; congr 1; omega
    | ok len => rw [hh] at h0; simp [HeadReply.succeeded] at h0

/-- The loop stops at the first successful attempt and returns its content length. -/
theorem getFileSizeLoop_first_ok (heads : Nat → HeadReply) (k : Nat) (len : Int)
    (hk : heads k = .ok len) :
    ∀ (t made : Nat), made ≤ k → k < made + t →
      (∀ j, made ≤ j → j < k → (heads j).succeeded = false) →
      getFileSizeLoop heads t made = (len, k + 1) := by
  intro t
  induction t with
  | zero => intro made h1 h2; omega
  | succ t ih =>
    intro made h1 h2 h
    unfold getFileSizeLoop
    by_cases hmk : made = k
    · subst hmk
      rw [hk]
    · have h0 := h made (le_refl _) (by omega)
      have hrest := ih (made + 1) (by omega) (by omega) (fun j a b => h j (by omega) b)
      cases hh : heads made with
      | noReply => simp only []; exact hrest
      | error => simp only []; exact hrest
      | ok len => rw [hh] at h0; simp [HeadReply.succeeded] at h0

/-- Among the first `n` attempts either none succeeds or there is a first one that does. -/
theorem exists_first_ok (heads : Nat → HeadReply) (n : Nat) :
    (∀ k, k < n → (heads k).succeeded = false) ∨
    ∃ k len, k < n ∧ heads k = .ok len ∧ ∀ j, j < k → (heads j).succeeded = false := by
  induction n with
  | zero => left; intro k hk; omega
  | succ n ih =>
    rcases ih with h | ⟨k, len, hk, hok, hb⟩
    · cases hh : heads n with
      | noReply =>
        left; intro k hk
        rcases Nat.lt_succ_iff_lt_or_eq.mp hk with h1 | h1
        · exact h k h1
        · subst h1; rw [hh]; rfl
      | error =>
        left; intro k hk
        rcases Nat.lt_succ_iff_lt_or_eq.mp hk with h1 | h1
        · exact h k h1
        · subst h1; rw [hh]; rfl
      | ok len => right; exact ⟨n, len, by omega, hh, h⟩
    · right; exact ⟨k, len, by omega, hok, hb⟩

/-- C8 (amended): the size probe. For every `tryTimes ≥ 0` and every sequence of
attempt outcomes, `getFileSize` makes at most `tryTimes` attempts; if attempt `k`
is the first successful one among them it returns that attempt's content length
after exactly `k + 1` attempts (none after it); if none of them succeeds it
returns `-1` after `tryTimes` attempts (so `-1` at once for `tryTimes = 0`). The
returned value is `-1` exactly when none of the attempts succeeds or the first
successful one itself reports the content length `-1`. -/
theorem getFileSize_spec (heads : Nat → HeadReply) (tryTimes : Nat) :
    (getFileSize heads tryTimes).2 ≤ tryTimes
    ∧ (∀ k len, k < tryTimes → heads k = .ok len →
        (∀ j, j < k → (heads j).succeeded = false) →
        getFileSize heads tryTimes = (len, k + 1))
    ∧ ((∀ k, k < tryTimes → (heads k).succeeded = false) →
        getFileSize heads tryTimes = (-1, tryTimes))
    ∧ ((getFileSize heads tryTimes).1 = -1 ↔
        ((∀ k, k < tryTimes → (heads k).succeeded = false) ∨
         ∃ k, k < tryTimes ∧ heads k = .ok (-1) ∧
           ∀ j, j < k → (heads j).succeeded = false)) := by
  have hfirst : ∀ k len, k < tryTimes → heads k = .ok len →
      (∀ j, j < k → (heads j).succeeded = false) →
      getFileSize heads tryTimes = (len, k + 1) := by
    intro k len hk hok hb
    exact getFileSizeLoop_first_ok heads k len hok tryTimes 0 (Nat.zero_le _) (by omega)
      (fun j _ hj => hb j hj)
  have hnone : (∀ k, k < tryTimes → (heads k).succeeded = false) →
      getFileSize heads tryTimes = (-1, tryTimes) := by
    intro h
    have := getFileSizeLoop_all_fail heads tryTimes 0 (fun k _ hk => h k (by omega))
    simpa [getFileSize] using this
  refine ⟨?_, hfirst, hnone, ?_⟩
  · rcases exists_first_ok heads tryTimes with h | ⟨k, len, hk, hok, hb⟩
    · rw [hnone h]
    · rw [hfirst k len hk hok hb]; exact hk
  · constructor
    · intro hm
      rcases exists_first_ok heads tryTimes with h | ⟨k, len, hk, hok, hb⟩
      · exact Or.inl h
      · rw [hfirst k len hk hok hb] at hm
        simp only at hm
        subst hm
        exact Or.inr ⟨k, hk, hok, hb⟩
    · rintro (h | ⟨k, hk, hok, hb⟩)
      · rw [hnone h]
      · rw [hfirst k (-1) hk hok hb]

/-- Use of C8 on concrete reply sequences. -/
theorem getFileSize_spec_witness :
    getFileSize (fun k => if k = 0 then .error else if k = 1 then .noReply else .ok 1000) 3
      = (1000, 3)
    ∧ getFileSize (fun k => if k = 0 then .error else .ok (7 + k)) 5 = (8, 2)
    ∧ getFileSize (fun _ => .error) 3 = (-1, 3)
    ∧ getFileSize (fun _ => .ok 5) 0 = (-1, 0) :=
  ⟨(getFileSize_spec _ 3).2.1 2 1000 (by decide) (by decide) (by decide),
   (getFileSize_spec _ 5).2.1 1 8 (by decide) (by decide) (by decide),
   (getFileSize_spec _ 3).2.2.1 (by decide),
   (getFileSize_spec _ 0).2.2.1 (by decide)⟩

/-- Counterexample to C8 as stated: a single successful attempt whose
`Content-Length` reads `-1` makes `getFileSize` return `-1` although an attempt
succeeded. -/
theorem getFileSize_sentinel_collision :
    ¬ (∀ (heads : Nat → HeadReply) (tryTimes : Nat),
        (getFileSize heads tryTimes).1 = -1 ↔
          ∀ k, k < tryTimes → (heads k).succeeded = false) := by
  intro h
  have h1 := (h (fun _ => .ok (-1)) 1).mp (by decide) 0 (by decide)
  revert h1
  decide

/-- A list different from the empty one is not `isEmpty`. -/
theorem isEmpty_false_of_ne_nil {α : Type} (l : List α) (hne : l ≠ []) : l.isEmpty = false := by
  cases l with
  | nil => exact absurd rfl hne
  | cons a l => rfl

/-- One iteration of the loop when no records were loaded. -/
theorem threadLoop_succ_empty (cfg : Config) (url : String) (file : QFile) (totalSize : Int)
    (n i : Nat) (threads : List DownloadThread) (trace : List Effect) :
    threadLoop cfg url file totalSize [] (n + 1) i threads trace =
      threadLoop cfg url file totalSize [] n (i + 1)
        (threads ++ [freshThread cfg url file totalSize i])
        (trace ++ [startEffect (freshThread cfg url file totalSize i)]) := by
  simp [threadLoop, freshThread, startEffect]

/-- One iteration of the loop when `records[i]` exists. -/
theorem threadLoop_succ_some (cfg : Config) (url : String) (file : QFile) (totalSize : Int)
    (records : List DownloadBreakPointItem) (hne : records ≠ [])
    (n i : Nat) (threads : List DownloadThread) (trace : List Effect)
    (item : DownloadBreakPointItem) (hitem : records[i]? = some item) :
    threadLoop cfg url file totalSize records (n + 1) i threads trace =
      threadLoop cfg url file totalSize records n (i + 1)
        (threads ++ [chosenThread cfg url file totalSize item i])
        (trace ++ [startEffect (chosenThread cfg url file totalSize item i)]) := by
  rw [threadLoop]
  simp only [isEmpty_false_of_ne_nil records hne, hitem]
  by_cases hi : cfg.isEmpty item = true
  · simp [hi, chosenThread, freshThread, startEffect]
  · simp [hi, chosenThread, resumedThread, startEffect]

/-- One iteration of the loop when `records[i]` is outside the list. -/
theorem threadLoop_succ_none (cfg : Config) (url : String) (file : QFile) (totalSize : Int)
    (records : List DownloadBreakPointItem) (hne : records ≠ [])
    (n i : Nat) (threads : List DownloadThread) (trace : List Effect)
    (hitem : records[i]? = none) :
    threadLoop cfg url file totalSize records (n + 1) i threads trace = (threads, trace, false) := by
  rw [threadLoop]
  simp only [isEmpty_false_of_ne_nil records hne, hitem]
  rfl

/-- The loop only appends: workers already started stay where they are. -/
theorem threadLoop_keeps (cfg : Config) (url : String) (file : QFile) (totalSize : Int)
    (records : List DownloadBreakPointItem) :
    ∀ (n i : Nat) (threads : List DownloadThread) (trace : List Effect) (k : Nat),
      k < threads.length →
      (threadLoop cfg url file totalSize records n i threads trace).1[k]? = threads[k]? := by
  intro n
  induction n with
  | zero => intro i threads trace k _; rfl
  | succ n ih =>
    intro i threads trace k hk
    by_cases hne : records = []
    · subst hne
      rw [threadLoop_succ_empty, ih _ _ _ _ (by simp; omega), List.getElem?_append_left hk]
    · cases hitem : records[i]? with
      | none => rw [threadLoop_succ_none cfg url file totalSize records hne n i threads trace hitem]
      | some item =>
        rw [threadLoop_succ_some cfg url file totalSize records hne n i threads trace item hitem,
          ih _ _ _ _ (by simp; omega), List.getElem?_append_left hk]

/-- The element appended last sits at the old length. -/
theorem getElem?_append_singleton_length {α : Type} (l : List α) (a : α) :
    (l ++ [a])[l.length]? = some a := by
  simp

/-- The worker the loop leaves at position `j`, for every index it gets to. -/
theorem threadLoop_get (cfg : Config) (url : String) (file : QFile) (totalSize : Int)
    (records : List DownloadBreakPointItem) :
    ∀ (n : Nat) (threads : List DownloadThread) (trace : List Effect) (j : Nat),
      threads.length ≤ j → j < threads.length + n →
      (records = [] →
        (threadLoop cfg url file totalSize records n threads.length threads trace).1[j]?
          = some (freshThread cfg url file totalSize j))
      ∧ (∀ item, records[j]? = some item →
        (threadLoop cfg url file totalSize records n threads.length threads trace).1[j]?
          = some (chosenThread cfg url file totalSize item j)) := by
  intro n
  induction n with
  | zero => intro threads trace j h1 h2; omega
  | succ n ih =>
    intro threads trace j hij hjn
    by_cases hne : records = []
    · subst hne
      refine ⟨fun _ => ?_, fun item h => by simp at h⟩
      rw [threadLoop_succ_empty]
      by_cases hji : j = threads.length
      · rw [hji, threadLoop_keeps _ _ _ _ _ _ _ _ _ _ (by simp)]
        exact getElem?_append_singleton_length _ _
      · have h := (ih (threads ++ [freshThread cfg url file totalSize threads.length])
          (trace ++ [startEffect (freshThread cfg url file totalSize threads.length)]) j
          (by simp; omega) (by simp; omega)).1 rfl
        simpa using h
    · refine ⟨fun h => absurd h hne, fun item hitem => ?_⟩
      have hjl : j < records.length := by
        by_contra hc
        rw [List.getElem?_eq_none (by omega)] at hitem
        exact Option.noConfusion hitem
      have hil : threads.length < records.length := by omega
      have hi0 : records[threads.length]? = some records[threads.length] :=
        List.getElem?_eq_getElem hil
      rw [threadLoop_succ_some cfg url file totalSize records hne n _ threads trace _ hi0]
      by_cases hji : j = threads.length
      · rw [hji] at hitem ⊢
        rw [hi0] at hitem
        cases hitem
        rw [threadLoop_keeps _ _ _ _ _ _ _ _ _ _ (by simp)]
        exact getElem?_append_singleton_length _ _
      · have h := (ih (threads ++ [chosenThread cfg url file totalSize records[threads.length]
            threads.length])
          (trace ++ [startEffect (chosenThread cfg url file totalSize records[threads.length]
            threads.length)]) j
          (by simp; omega) (by simp; omega)).2 item hitem
        simpa using h

/-- A loop that ran to its end started one worker per iteration. -/
theorem threadLoop_length (cfg : Config) (url : String) (file : QFile) (totalSize : Int)
    (records : List DownloadBreakPointItem) :
    ∀ (n i : Nat) (threads : List DownloadThread) (trace : List Effect),
      (threadLoop cfg url file totalSize records n i threads trace).2.2 = true →
      (threadLoop cfg url file totalSize records n i threads trace).1.length
        = threads.length + n := by
  intro n
  induction n with
  | zero => intro i threads trace _; rfl
  | succ n ih =>
    intro i threads trace
    by_cases hne : records = []
    · subst hne
      rw [threadLoop_succ_empty]
      intro h
      rw [ih _ _ _ h]
      simp; omega
    · cases hitem : records[i]? with
      | none =>
        rw [threadLoop_succ_none cfg url file totalSize records hne n i threads trace hitem]
        intro h
        exact absurd h (by simp)
      | some item =>
        rw [threadLoop_succ_some cfg url file totalSize records hne n i threads trace item hitem]
        intro h
        rw [ih _ _ _ h]
        simp; omega

/-- The loop runs to its end exactly when there is nothing to do, no record
was loaded, or the record list reaches up to the last index. -/
theorem threadLoop_flag (cfg : Config) (url : String) (file : QFile) (totalSize : Int)
    (records : List DownloadBreakPointItem) :
    ∀ (n i : Nat) (threads : List DownloadThread) (trace : List Effect),
      ((threadLoop cfg url file totalSize records n i threads trace).2.2 = true ↔
        (n = 0 ∨ records = [] ∨ i + n ≤ records.length)) := by
  intro n
  induction n with
  | zero => intro i threads trace; simp [threadLoop]
  | succ n ih =>
    intro i threads trace
    by_cases hne : records = []
    · subst hne
      rw [threadLoop_succ_empty, ih]
      simp
    · cases hitem : records[i]? with
      | none =>
        rw [threadLoop_succ_none cfg url file totalSize records hne n i threads trace hitem]
        have hl : records.length ≤ i := by
          by_contra hc
          rw [List.getElem?_eq_getElem (by omega)] at hitem
          exact Option.noConfusion hitem
        simp [hne]
        omega
      | some item =>
        rw [threadLoop_succ_some cfg url file totalSize records hne n i threads trace item hitem,
          ih]
        have hl : i < records.length := by
          by_contra hc
          rw [List.getElem?_eq_none (by omega)] at hitem
          exact Option.noConfusion hitem
        simp [hne]
        omega

/-- Past validation, probe and open, the worker set is what the loop produced. -/
theorem downloadFile_threads (cfg : Config) (env : StartEnv) (url : String)
    (s : DownloadThreadManager) (hstate : s.m_state ≠ .D_Download)
    (h1 : 1 ≤ cfg.THREADCOUNT) (h15 : cfg.THREADCOUNT ≤ 15)
    (hprobe : (getFileSize env.heads cfg.tryTimes).1 ≠ -1) (hopen : env.openOk = true) :
    (downloadFile cfg env url s).2.1.m_threads =
      (threadLoop cfg url ⟨fileNameOf env.path⟩ (getFileSize env.heads cfg.tryTimes).1
        (loadRecords env) cfg.THREADCOUNT.toNat 0 [] []).1 := by
  have hT : ¬ (cfg.THREADCOUNT < 1 ∨ cfg.THREADCOUNT > 15) := by omega
  unfold downloadFile
  simp only [hstate, hT, hprobe, hopen, if_false, Bool.not_true, Bool.false_eq_true]
  split <;> rfl

/-- The loop logs one `startDownload` per worker it starts, with that worker's values. -/
theorem threadLoop_trace (cfg : Config) (url : String) (file : QFile) (totalSize : Int)
    (records : List DownloadBreakPointItem) :
    ∀ (n i : Nat) (threads : List DownloadThread) (trace : List Effect),
      trace = threads.map startEffect →
      (threadLoop cfg url file totalSize records n i threads trace).2.1
        = (threadLoop cfg url file totalSize records n i threads trace).1.map startEffect := by
  intro n
  induction n with
  | zero => intro i threads trace h; exact h
  | succ n ih =>
    intro i threads trace h
    by_cases hne : records = []
    · subst hne
      rw [threadLoop_succ_empty]
      exact ih _ _ _ (by simp [h])
    · cases hitem : records[i]? with
      | none =>
        rw [threadLoop_succ_none cfg url file totalSize records hne n i threads trace hitem]
        exact h
      | some item =>
        rw [threadLoop_succ_some cfg url file totalSize records hne n i threads trace item hitem]
        exact ih _ _ _ (by simp [h])

/-- Past validation, probe and open, every `startDownload` of the loop is part of
what `downloadFile` did. -/
theorem downloadFile_trace (cfg : Config) (env : StartEnv) (url : String)
    (s : DownloadThreadManager) (hstate : s.m_state ≠ .D_Download)
    (h1 : 1 ≤ cfg.THREADCOUNT) (h15 : cfg.THREADCOUNT ≤ 15)
    (hprobe : (getFileSize env.heads cfg.tryTimes).1 ≠ -1) (hopen : env.openOk = true)
    (e : Effect)
    (he : e ∈ (threadLoop cfg url ⟨fileNameOf env.path⟩ (getFileSize env.heads cfg.tryTimes).1
        (loadRecords env) cfg.THREADCOUNT.toNat 0 [] []).2.1) :
    e ∈ (downloadFile cfg env url s).2.2 := by
  have hT : ¬ (cfg.THREADCOUNT < 1 ∨ cfg.THREADCOUNT > 15) := by omega
  unfold downloadFile
  simp only [hstate, hT, hprobe, hopen, if_false, Bool.not_true, Bool.false_eq_true]
  split
  · simp only [List.mem_append]
    exact Or.inl (Or.inr he)
  · simp only [List.mem_append]
    exact Or.inr he

/-- A worker found in the worker set after `downloadFile` was started by a
`startDownload` call with exactly its values. -/
theorem downloadFile_started (cfg : Config) (env : StartEnv) (url : String)
    (s : DownloadThreadManager) (hstate : s.m_state ≠ .D_Download)
    (h1 : 1 ≤ cfg.THREADCOUNT) (h15 : cfg.THREADCOUNT ≤ 15)
    (hprobe : (getFileSize env.heads cfg.tryTimes).1 ≠ -1) (hopen : env.openOk = true)
    (i : Nat) (w : DownloadThread)
    (hw : (downloadFile cfg env url s).2.1.m_threads[i]? = some w) :
    Effect.startDownload w.index w.url w.file.fileName w.startPoint w.endPoint w.readySize
      ∈ (downloadFile cfg env url s).2.2 := by
  apply downloadFile_trace cfg env url s hstate h1 h15 hprobe hopen
  rw [downloadFile_threads cfg env url s hstate h1 h15 hprobe hopen] at hw
  rw [threadLoop_trace cfg url ⟨fileNameOf env.path⟩ (getFileSize env.heads cfg.tryTimes).1
    (loadRecords env) cfg.THREADCOUNT.toNat 0 [] [] rfl]
  exact List.mem_map.mpr ⟨w, List.getElem?_mem hw, rfl⟩

/-- C2: resume override in `downloadFile`. Whenever a call gets as far as the
loop (not already downloading, worker count in `1..15`, probe succeeded with
size `totalSize`, file opened), then for every segment index `i < THREADCOUNT`
and every loaded record list: if `records[i]` exists and is not empty, worker
`i` is created by `startDownload(i, url, file, m_start, m_end, m_ready)` with
exactly the record's values; if `records[i]` exists and is empty, or no records
were loaded, worker `i` is created by `startDownload` with the computed bounds
`totalSize * i / THREADCOUNT` and `totalSize * (i + 1) / THREADCOUNT` (the
product on `qint64`, the quotient truncated) and ready `0`. As long as
`totalSize * THREADCOUNT` fits `qint64` these bounds are the exact quotients. -/
theorem resume_override (cfg : Config) (env : StartEnv) (url : String)
    (s : DownloadThreadManager) (i : Nat) (hstate : s.m_state ≠ .D_Download)
    (h1 : 1 ≤ cfg.THREADCOUNT) (h15 : cfg.THREADCOUNT ≤ 15)
    (hprobe : (getFileSize env.heads cfg.tryTimes).1 ≠ -1) (hopen : env.openOk = true)
    (hi : (i : Int) < cfg.THREADCOUNT) :
    (∀ item, (loadRecords env)[i]? = some item → cfg.isEmpty item = false →
      (downloadFile cfg env url s).2.1.m_threads[i]? =
        some ⟨i, url, ⟨fileNameOf env.path⟩, item.m_start, item.m_end, item.m_ready, true⟩
      ∧ Effect.startDownload i url (fileNameOf env.path) item.m_start item.m_end item.m_ready
          ∈ (downloadFile cfg env url s).2.2)
    ∧ ((loadRecords env = [] ∨
        ∃ item, (loadRecords env)[i]? = some item ∧ cfg.isEmpty item = true) →
      (downloadFile cfg env url s).2.1.m_threads[i]? =
        some ⟨i, url, ⟨fileNameOf env.path⟩,
          Int.tdiv (((getFileSize env.heads cfg.tryTimes).1 * (i : Int) + 2 ^ 63) % 2 ^ 64
            - 2 ^ 63) cfg.THREADCOUNT,
          Int.tdiv (((getFileSize env.heads cfg.tryTimes).1 * ((i : Int) + 1) + 2 ^ 63) % 2 ^ 64
            - 2 ^ 63) cfg.THREADCOUNT,
          0, true⟩
      ∧ Effect.startDownload i url (fileNameOf env.path)
          (Int.tdiv (((getFileSize env.heads cfg.tryTimes).1 * (i : Int) + 2 ^ 63) % 2 ^ 64
            - 2 ^ 63) cfg.THREADCOUNT)
          (Int.tdiv (((getFileSize env.heads cfg.tryTimes).1 * ((i : Int) + 1) + 2 ^ 63) % 2 ^ 64
            - 2 ^ 63) cfg.THREADCOUNT)
          0
          ∈ (downloadFile cfg env url s).2.2)
    ∧ (0 ≤ (getFileSize env.heads cfg.tryTimes).1 →
        (getFileSize env.heads cfg.tryTimes).1 * cfg.THREADCOUNT < 2 ^ 63 →
        Int.tdiv (((getFileSize env.heads cfg.tryTimes).1 * (i : Int) + 2 ^ 63) % 2 ^ 64
            - 2 ^ 63) cfg.THREADCOUNT
          = (getFileSize env.heads cfg.tryTimes).1 * (i : Int) / cfg.THREADCOUNT
        ∧ Int.tdiv (((getFileSize env.heads cfg.tryTimes).1 * ((i : Int) + 1) + 2 ^ 63) % 2 ^ 64
            - 2 ^ 63) cfg.THREADCOUNT
          = (getFileSize env.heads cfg.tryTimes).1 * ((i : Int) + 1) / cfg.THREADCOUNT) := by
  have hth := downloadFile_threads cfg env url s hstate h1 h15 hprobe hopen
  have hg := threadLoop_get cfg url ⟨fileNameOf env.path⟩ (getFileSize env.heads cfg.tryTimes).1
    (loadRecords env) cfg.THREADCOUNT.toNat [] [] i (by simp) (by simp; omega)
  simp only [List.length_nil] at hg
  have hst := downloadFile_started cfg env url s hstate h1 h15 hprobe hopen i
  refine ⟨fun item hitem he => ?_, fun hcase => ?_, fun h0 hfit => ?_⟩
  · have hw : (downloadFile cfg env url s).2.1.m_threads[i]? =
        some ⟨i, url, ⟨fileNameOf env.path⟩, item.m_start, item.m_end, item.m_ready, true⟩ := by
      rw [hth, hg.2 item hitem]
      simp [chosenThread, he, resumedThread]
    exact ⟨hw, hst _ hw⟩
  · have hw : (downloadFile cfg env url s).2.1.m_threads[i]? =
        some ⟨i, url, ⟨fileNameOf env.path⟩,
          Int.tdiv (((getFileSize env.heads cfg.tryTimes).1 * (i : Int) + 2 ^ 63) % 2 ^ 64
            - 2 ^ 63) cfg.THREADCOUNT,
          Int.tdiv (((getFileSize env.heads cfg.tryTimes).1 * ((i : Int) + 1) + 2 ^ 63) % 2 ^ 64
            - 2 ^ 63) cfg.THREADCOUNT,
          0, true⟩ := by
      rcases hcase with hnil | ⟨item, hitem, he⟩
      · rw [hth, hg.1 hnil]
        rfl
      · rw [hth, hg.2 item hitem]
        simp only [chosenThread, he, if_true]
        rfl
    exact ⟨hw, hst _ hw⟩
  · have hTi : (0 : Int) ≤ cfg.THREADCOUNT := by omega
    have hle1 : (getFileSize env.heads cfg.tryTimes).1 * ((i : Int) + 1)
        ≤ (getFileSize env.heads cfg.tryTimes).1 * cfg.THREADCOUNT :=
      mul_le_mul_of_nonneg_left (by omega) h0
    have hle0 : (getFileSize env.heads cfg.tryTimes).1 * (i : Int)
        ≤ (getFileSize env.heads cfg.tryTimes).1 * cfg.THREADCOUNT :=
      mul_le_mul_of_nonneg_left (by omega) h0
    have hnn0 : 0 ≤ (getFileSize env.heads cfg.tryTimes).1 * (i : Int) :=
      mul_nonneg h0 (by positivity)
    have hnn1 : 0 ≤ (getFileSize env.heads cfg.tryTimes).1 * ((i : Int) + 1) :=
      mul_nonneg h0 (by positivity)
    have w0 := wrap64_of_fits _ hnn0 (lt_of_le_of_lt hle0 hfit)
    have w1 := wrap64_of_fits _ hnn1 (lt_of_le_of_lt hle1 hfit)
    unfold wrap64 at w0 w1
    rw [w0, w1]
    exact ⟨Int.tdiv_eq_ediv hnn0 hTi, Int.tdiv_eq_ediv hnn1 hTi⟩

/-- Use of C2 with `THREADCOUNT = 4` and `totalSize = 1000`: with four stored
records of which the third is empty, worker 1 resumes at `260, 490, 30` and worker
2 starts fresh at `500, 750, 0`; without stored records worker 3 starts at
`750, 1000, 0`. The last two parts are the complete lists of actions of the two
calls. -/
theorem resume_override_witness :
    ((downloadFile sampleConfig resumeEnv "u" (initial 0 0 0)).2.1.m_threads[1]? =
        some ⟨1, "u", ⟨"file.bin"⟩, 260, 490, 30, true⟩
      ∧ Effect.startDownload 1 "u" "file.bin" 260 490 30
          ∈ (downloadFile sampleConfig resumeEnv "u" (initial 0 0 0)).2.2)
    ∧ ((downloadFile sampleConfig resumeEnv "u" (initial 0 0 0)).2.1.m_threads[2]? =
        some ⟨2, "u", ⟨"file.bin"⟩, 500, 750, 0, true⟩
      ∧ Effect.startDownload 2 "u" "file.bin" 500 750 0
          ∈ (downloadFile sampleConfig resumeEnv "u" (initial 0 0 0)).2.2)
    ∧ ((downloadFile sampleConfig freshEnv "u" (initial 0 0 0)).2.1.m_threads[3]? =
        some ⟨3, "u", ⟨"file.bin"⟩, 750, 1000, 0, true⟩
      ∧ Effect.startDownload 3 "u" "file.bin" 750 1000 0
          ∈ (downloadFile sampleConfig freshEnv "u" (initial 0 0 0)).2.2)
    ∧ (downloadFile sampleConfig resumeEnv "u" (initial 0 0 0)).2.2 =
        [.stateChanged "D_Waiting", .headRequest "u",
         .updateFileInfoChanged "file.bin" 1000, .readConfig "file.bin.cfg",
         .readBreakPointConfig, .fileOpen "file.bin", .fileResize "file.bin" 1000,
         .deleteThreads,
         .startDownload 0 "u" "file.bin" 0 250 100,
         .startDownload 1 "u" "file.bin" 260 490 30,
         .startDownload 2 "u" "file.bin" 500 750 0,
         .startDownload 3 "u" "file.bin" 750 1000 1,
         .stateChanged "D_Download"]
    ∧ (downloadFile sampleConfig freshEnv "u" (initial 0 0 0)).2.2 =
        [.stateChanged "D_Waiting", .headRequest "u",
         .updateFileInfoChanged "file.bin" 1000, .readConfig "file.bin.cfg",
         .fileOpen "file.bin", .fileResize "file.bin" 1000, .deleteThreads,
         .startDownload 0 "u" "file.bin" 0 250 0,
         .startDownload 1 "u" "file.bin" 250 500 0,
         .startDownload 2 "u" "file.bin" 500 750 0,
         .startDownload 3 "u" "file.bin" 750 1000 0,
         .stateChanged "D_Download"] :=
  ⟨(resume_override sampleConfig resumeEnv "u" (initial 0 0 0) 1 (by decide) (by decide)
      (by decide) (by decide) rfl (by decide)).1 ⟨"u", 260, 490, 30⟩ (by decide) (by decide),
   (resume_override sampleConfig resumeEnv "u" (initial 0 0 0) 2 (by decide) (by decide)
      (by decide) (by decide) rfl (by decide)).2.1
      (Or.inr ⟨⟨"", -1, -1, -1⟩, by decide, by decide⟩),
   (resume_override sampleConfig freshEnv "u" (initial 0 0 0) 3 (by decide) (by decide)
      (by decide) (by decide) rfl (by decide)).2.1 (Or.inl (by decide)),
   by decide, by decide⟩

/-- C4: a start while `D_Download` is rejected. `downloadFile` returns `false`,
every member variable (state, file, workers, total size, ready size, running
count) is as before, and the only actions are the `stateChanged` signal and a
diagnostic: no HEAD request, no file opened, no worker started. -/
theorem start_while_downloading_rejected (cfg : Config) (env : StartEnv) (url : String)
    (s : DownloadThreadManager) (h : s.m_state = .D_Download) :
    downloadFile cfg env url s =
      (some false, s, [.stateChanged "D_Waiting", .qDebug "Current is downloading a file"]) := by
  simp [downloadFile, h]

/-- Use of C4 on a session with two running workers. -/
theorem start_while_downloading_rejected_witness :
    downloadingState.m_state = .D_Download ∧
    downloadFile sampleConfig freshEnv "http://host/other.bin" downloadingState =
      (some false, downloadingState,
        [.stateChanged "D_Waiting", .qDebug "Current is downloading a file"]) :=
  ⟨rfl, start_while_downloading_rejected sampleConfig freshEnv "http://host/other.bin"
    downloadingState rfl⟩

/-- C7 (amended): what a start that fails validation does. If the session is
already downloading, `downloadFile` returns `false` and no member variable
changes; if it is not and `THREADCOUNT` is outside `1..15`, it returns `false`
and only `m_state` changes, to `D_Waiting`. In both cases the one signal emitted
is `stateChanged(D_Waiting)`, and there is no network or file activity. -/
theorem failed_validation_effects (cfg : Config) (env : StartEnv) (url : String)
    (s : DownloadThreadManager) :
    (s.m_state = .D_Download →
      downloadFile cfg env url s =
        (some false, s, [.stateChanged "D_Waiting", .qDebug "Current is downloading a file"]))
    ∧ (s.m_state ≠ .D_Download → (cfg.THREADCOUNT < 1 ∨ cfg.THREADCOUNT > 15) →
      downloadFile cfg env url s =
        (some false, { s with m_state := .D_Waiting },
          [.stateChanged "D_Waiting", .qDebug "Download thread count error"])) := by
  constructor
  · intro h
    simp [downloadFile, h]
  · intro h hT
    simp [downloadFile, h, hT]

/-- Use of C7 on both validation failures. -/
theorem failed_validation_effects_witness :
    downloadFile sampleConfig freshEnv "u" downloadingState =
        (some false, downloadingState,
          [.stateChanged "D_Waiting", .qDebug "Current is downloading a file"])
    ∧ downloadFile zeroThreadConfig freshEnv "u" (initial 0 0 0) =
        (some false, { initial 0 0 0 with m_state := .D_Waiting },
          [.stateChanged "D_Waiting", .qDebug "Download thread count error"]) :=
  ⟨(failed_validation_effects sampleConfig freshEnv "u" downloadingState).1 rfl,
   (failed_validation_effects zeroThreadConfig freshEnv "u" (initial 0 0 0)).2
     (by decide) (by decide)⟩

/-- Counterexample to C7 as stated: with an invalid worker count the call
returns `false`, yet the state goes from `D_Stop` to `D_Waiting` and
`stateChanged` is emitted; the signal is also emitted when already downloading. -/
theorem failed_validation_not_silent :
    (downloadFile zeroThreadConfig freshEnv "u" (initial 0 0 0)).1 = some false
    ∧ (initial 0 0 0).m_state = .D_Stop
    ∧ (downloadFile zeroThreadConfig freshEnv "u" (initial 0 0 0)).2.1.m_state = .D_Waiting
    ∧ Effect.stateChanged "D_Waiting" ∈
        (downloadFile zeroThreadConfig freshEnv "u" (initial 0 0 0)).2.2
    ∧ (downloadFile sampleConfig freshEnv "u" downloadingState).1 = some false
    ∧ Effect.stateChanged "D_Waiting" ∈
        (downloadFile sampleConfig freshEnv "u" downloadingState).2.2 := by
  decide

/-- C9: the subscript `records[i]` of `downloadFile` at a breakpoint file with
one record and `THREADCOUNT = 4`. After the first worker the loop evaluates
`records[1]`, which is outside the list; the call has no defined result. -/
theorem records_subscript_out_of_range :
    (loadRecords shortRecordsEnv).length = 1
    ∧ (loadRecords shortRecordsEnv)[1]? = none
    ∧ (downloadFile sampleConfig shortRecordsEnv "u" (initial 0 0 0)).1 = none
    ∧ (downloadFile sampleConfig shortRecordsEnv "u" (initial 0 0 0)).2.1.m_threads.length = 1 := by
  decide

/-- C6: `pause()` in `D_Stop`, `D_Pause` or `D_Finished`, and `restart()` in any
state but `D_Pause`, leave every member variable as it was; the only action is
a diagnostic: no signal, no call on a worker, nothing for the breakpoint store. -/
theorem pause_restart_noop (cfg : Config) (writeOk : Bool) (s : DownloadThreadManager) :
    ((s.m_state = .D_Stop ∨ s.m_state = .D_Pause ∨ s.m_state = .D_Finished) →
      pause cfg writeOk s = (s, [.qDebug "Current is not downloading"]))
    ∧ (s.m_state ≠ .D_Pause → restart s = (s, [.qDebug "Current is not paused"])) := by
  constructor
  · intro h
    have h1 : s.m_state ≠ .D_Download ∧ s.m_state ≠ .D_Waiting := by
      rcases h with h | h | h <;> rw [h] <;> decide
    simp [pause, h1]
  · intro h
    simp [restart, h]

/-- Use of C6 on a paused, a fresh and a downloading manager. -/
theorem pause_restart_noop_witness :
    pause sampleConfig true pausedState = (pausedState, [.qDebug "Current is not downloading"])
    ∧ pause sampleConfig true (initial 0 0 0)
        = (initial 0 0 0, [.qDebug "Current is not downloading"])
    ∧ restart downloadingState = (downloadingState, [.qDebug "Current is not paused"]) :=
  ⟨(pause_restart_noop sampleConfig true pausedState).1 (Or.inr (Or.inl rfl)),
   (pause_restart_noop sampleConfig true (initial 0 0 0)).1 (Or.inl rfl),
   (pause_restart_noop sampleConfig true downloadingState).2 (by decide)⟩

/-- C5 (amended): `pause()` on a downloading session with a destination file
`f` and workers `w_0 .. w_(n-1)`. The state becomes `D_Pause`, every worker is
told to pause (and no other member variable changes), `writeConfig` is called
with the key `f.fileName + SET_FILE`, and when that call succeeds the store is
handed a list of `n` records, the `i`-th being `(url, start, end, ready)` of
`w_i`; when it fails the store is handed nothing. -/
theorem pause_persists_snapshot (cfg : Config) (writeOk : Bool) (s : DownloadThreadManager)
    (f : QFile) (hstate : s.m_state = .D_Download) (hfile : s.m_file = some f) :
    (pause cfg writeOk s).1 =
        { s with m_state := .D_Pause, m_threads := s.m_threads.map DownloadThread.pause }
    ∧ (∀ t, t ∈ (pause cfg writeOk s).1.m_threads → t.running = false)
    ∧ (pause cfg writeOk s).2 =
        [.stateChanged "D_Pause"] ++ (List.range s.m_threads.length).map .threadPause
          ++ [.writeConfig (f.fileName ++ cfg.SET_FILE)]
          ++ (if writeOk then
                [.writeBreakPointConfig (s.m_threads.map DownloadThread.snapshot)]
              else [])
    ∧ (s.m_threads.map DownloadThread.snapshot).length = s.m_threads.length
    ∧ (∀ (i : Nat) (w : DownloadThread), s.m_threads[i]? = some w →
        (s.m_threads.map DownloadThread.snapshot)[i]? =
          some (DownloadBreakPointItem.mk w.url w.startPoint w.endPoint w.readySize)) := by
  have hs : ¬ (s.m_state ≠ .D_Download ∧ s.m_state ≠ .D_Waiting) := by
    rw [hstate]; decide
  have hsnap : (s.m_threads.map DownloadThread.pause).map DownloadThread.snapshot
      = s.m_threads.map DownloadThread.snapshot := by
    rw [List.map_map]
    rfl
  refine ⟨?_, ?_, ?_, by simp, ?_⟩
  · simp [pause, hs, hfile]
  · intro t ht
    have hth : (pause cfg writeOk s).1.m_threads = s.m_threads.map DownloadThread.pause := by
      simp [pause, hs, hfile]
    rw [hth] at ht
    obtain ⟨a, _, rfl⟩ := List.mem_map.mp ht
    rfl
  · simp only [pause, hs, hfile, if_false, hsnap]
  · intro i w hw
    simp [hw, DownloadThread.snapshot]

/-- Use of C5 on a session with two workers. -/
theorem pause_persists_snapshot_witness :
    (pause sampleConfig true downloadingState).1 = pausedState
    ∧ (pause sampleConfig true downloadingState).2 =
        [.stateChanged "D_Pause", .threadPause 0, .threadPause 1,
         .writeConfig "file.bin.cfg",
         .writeBreakPointConfig [⟨"u", 0, 500, 120⟩, ⟨"u", 500, 1000, 40⟩]] :=
  ⟨(pause_persists_snapshot sampleConfig true downloadingState ⟨"file.bin"⟩ rfl rfl).1,
   (pause_persists_snapshot sampleConfig true downloadingState ⟨"file.bin"⟩ rfl rfl).2.2.1⟩

/-- Counterexample to C5 as stated: when `writeConfig` fails, `pause()` on a
downloading session with an open file hands no record list to the store. -/
theorem pause_without_store_write :
    downloadingState.m_state = .D_Download
    ∧ downloadingState.m_file = some ⟨"file.bin"⟩
    ∧ (pause sampleConfig false downloadingState).2 =
        [.stateChanged "D_Pause", .threadPause 0, .threadPause 1, .writeConfig "file.bin.cfg"]
    ∧ ∀ records, Effect.writeBreakPointConfig records ∉ (pause sampleConfig false downloadingState).2 := by
  refine ⟨rfl, rfl, by decide, ?_⟩
  intro records h
  have he : (pause sampleConfig false downloadingState).2 =
      [.stateChanged "D_Pause", .threadPause 0, .threadPause 1, .writeConfig "file.bin.cfg"] := by
    decide
  rw [he] at h
  simp at h

/-- The completion transition as long as `m_file` is set: `finishedSlot` decrements
the running count; when the new count is zero in `D_Download` the file is flushed,
closed and released, `fileName + SET_FILE` is removed, the workers are deleted and
only then `stateChanged(D_Finished)` and `downloadingFinished` are emitted;
otherwise only the running count changes. -/
theorem finishedSlot_with_file (cfg : Config) (index : Int) (s : DownloadThreadManager) :
    (∀ f, s.m_file = some f →
      (wrap32 (s.m_runningCount - 1) = 0 ∧ s.m_state = .D_Download) →
        finishedSlot cfg index s =
          some ({ m_file := none, m_state := .D_Finished, m_threads := [],
                  m_totalSize := s.m_totalSize, m_readySize := s.m_readySize,
                  m_runningCount := wrap32 (s.m_runningCount - 1) },
                [.qDebugIndex "finished" index,
                 .fileFlush f.fileName, .fileClose f.fileName, .fileDelete f.fileName,
                 .fileRemove (f.fileName ++ cfg.SET_FILE), .deleteThreads,
                 .stateChanged "D_Finished", .downloadingFinished]))
    ∧ (¬ (wrap32 (s.m_runningCount - 1) = 0 ∧ s.m_state = .D_Download) →
      finishedSlot cfg index s =
        some ({ s with m_runningCount := wrap32 (s.m_runningCount - 1) },
              [.qDebugIndex "finished" index])) := by
  constructor
  · intro f hf h
    simp [finishedSlot, downloadingFinish, h.1, h.2, hf]
  · intro h
    simp only [finishedSlot, h, if_false]

/-- C3: the completion transition at a state the manager can reach in which the
last worker finishes while `m_file` is null. The claim asks for the state
`D_Finished` with the file closed and the events emitted; `downloadingFinish`
dereferences the null `m_file` instead, so `finishedSlot` has no resulting state.
With two workers the state is reached by a start, `pause`, a second start that
fails to open its file, `pause`, `restart` and one worker-finished event; the
second worker-finished event is the failing call. -/
theorem finished_without_file :
    danglingState.m_state = .D_Download
    ∧ danglingState.m_runningCount = 1
    ∧ danglingState.m_file = none
    ∧ finishedSlot sampleConfig 0 danglingState = none
    ∧ run twoThreadConfig (initial 0 0 0)
        [.downloadFile freshEnv "u", .pause true, .downloadFile openFailEnv "v", .pause true,
         .restart, .finishedSlot 0] =
        some { m_file := none, m_state := .D_Download,
               m_threads := [⟨0, "u", ⟨"file.bin"⟩, 0, 500, 0, true⟩,
                             ⟨1, "u", ⟨"file.bin"⟩, 500, 1000, 0, true⟩],
               m_totalSize := 1000, m_readySize := 0, m_runningCount := 1 }
    ∧ run twoThreadConfig (initial 0 0 0)
        [.downloadFile freshEnv "u", .pause true, .downloadFile openFailEnv "v", .pause true,
         .restart, .finishedSlot 0, .finishedSlot 1] = none := by
  decide

/-- The four ways a call of `downloadFile` can end. -/
theorem downloadFile_cases (cfg : Config) (env : StartEnv) (url : String)
    (s : DownloadThreadManager) :
    ((downloadFile cfg env url s).1 = some false ∧ (downloadFile cfg env url s).2.1 = s
        ∧ s.m_state = .D_Download)
    ∨ ((downloadFile cfg env url s).1 = some false
        ∧ (downloadFile cfg env url s).2.1.m_state = .D_Waiting)
    ∨ ((downloadFile cfg env url s).1 = some true
        ∧ (downloadFile cfg env url s).2.1.m_state = .D_Download
        ∧ (downloadFile cfg env url s).2.1.m_file ≠ none
        ∧ ((downloadFile cfg env url s).2.1.m_threads.length : Int) = cfg.THREADCOUNT
        ∧ (downloadFile cfg env url s).2.1.m_runningCount = cfg.THREADCOUNT
        ∧ 1 ≤ cfg.THREADCOUNT ∧ cfg.THREADCOUNT ≤ 15)
    ∨ (downloadFile cfg env url s).1 = none := by
  unfold downloadFile
  by_cases h1 : s.m_state = .D_Download
  · left; simp [h1]
  · by_cases h2 : cfg.THREADCOUNT < 1 ∨ cfg.THREADCOUNT > 15
    · right; left; simp [h1, h2]
    · by_cases h3 : (getFileSize env.heads cfg.tryTimes).1 = -1
      · right; left; simp [h1, h2, h3]
      · by_cases h4 : env.openOk = true
        · by_cases h5 : (threadLoop cfg url ⟨fileNameOf env.path⟩
              (getFileSize env.heads cfg.tryTimes).1 (loadRecords env)
              cfg.THREADCOUNT.toNat 0 [] []).2.2 = true
          · right; right; left
            have hlen := threadLoop_length cfg url ⟨fileNameOf env.path⟩
              (getFileSize env.heads cfg.tryTimes).1 (loadRecords env)
              cfg.THREADCOUNT.toNat 0 [] [] h5
            simp only [h1, h2, h3, h4, h5, if_false, if_true, Bool.not_true,
              Bool.false_eq_true]
            refine ⟨trivial, trivial, by simp, ?_, trivial, by omega, by omega⟩
            simp only [hlen, List.length_nil, Nat.zero_add]
            omega
          · right; right; right
            simp only [h1, h2, h3, h4, h5, if_false, Bool.not_true, Bool.false_eq_true]
        · right; left
          simp [h1, h2, h3, h4]

/-- The state `pause()` leaves. -/
theorem pause_state (cfg : Config) (writeOk : Bool) (s : DownloadThreadManager) :
    (pause cfg writeOk s).1 =
      if s.m_state ≠ .D_Download ∧ s.m_state ≠ .D_Waiting then s
      else { s with m_state := .D_Pause, m_threads := s.m_threads.map DownloadThread.pause } := by
  unfold pause
  split
  · rfl
  · cases s.m_file <;> rfl

/-- The state `restart()` leaves. -/
theorem restart_state (s : DownloadThreadManager) :
    (restart s).1 =
      if s.m_state ≠ .D_Pause then s
      else { s with m_state := .D_Download,
                    m_threads := s.m_threads.map DownloadThread.restart } := by
  unfold restart
  split <;> rfl

/-- A value inside the `int` range is not changed by the reduction. -/
theorem wrap32_of_fits (x : Int) (h1 : -(2 ^ 31) ≤ x) (h2 : x < 2 ^ 31) : wrap32 x = x := by
  unfold wrap32
  rw [Int.emod_eq_of_lt] <;> omega

/-- The states a call of `downloadFile` can leave, seen as a step. -/
theorem step_downloadFile (cfg : Config) (env : StartEnv) (url : String)
    (s s1 : DownloadThreadManager) (hstep : step cfg s (.downloadFile env url) = some s1) :
    (s1 = s ∧ s.m_state = .D_Download)
    ∨ s1.m_state = .D_Waiting
    ∨ (s1.m_state = .D_Download ∧ s1.m_file ≠ none
        ∧ (s1.m_threads.length : Int) = cfg.THREADCOUNT
        ∧ s1.m_runningCount = cfg.THREADCOUNT
        ∧ 1 ≤ cfg.THREADCOUNT ∧ cfg.THREADCOUNT ≤ 15) := by
  simp only [step] at hstep
  have hc := downloadFile_cases cfg env url s
  revert hstep hc
  generalize downloadFile cfg env url s = r
  rcases r with ⟨a, b, c⟩
  intro hstep hc
  cases a with
  | none => simp at hstep
  | some ret =>
    simp only [Option.some.injEq] at hstep
    subst hstep
    rcases hc with h | h | h | h
    · exact Or.inl ⟨h.2.1, h.2.2⟩
    · exact Or.inr (Or.inl h.2)
    · exact Or.inr (Or.inr h.2)
    · simp at h

/-- The state a worker-finished event leaves. -/
theorem step_finishedSlot (cfg : Config) (index : Int) (s s1 : DownloadThreadManager)
    (hstep : step cfg s (.finishedSlot index) = some s1) :
    (wrap32 (s.m_runningCount - 1) = 0 ∧ s.m_state = .D_Download ∧ s1.m_state = .D_Finished)
    ∨ (¬ (wrap32 (s.m_runningCount - 1) = 0 ∧ s.m_state = .D_Download)
        ∧ s1 = { s with m_runningCount := wrap32 (s.m_runningCount - 1) }) := by
  simp only [step, finishedSlot] at hstep
  by_cases hg : wrap32 (s.m_runningCount - 1) = 0 ∧ s.m_state = .D_Download
  · left
    rw [if_pos hg] at hstep
    cases hf : s.m_file with
    | none => simp [downloadingFinish, hf] at hstep
    | some f =>
      simp only [downloadingFinish, hf, Option.map, Option.some.injEq] at hstep
      rw [← hstep]
      exact ⟨hg.1, hg.2, rfl⟩
  · right
    rw [if_neg hg] at hstep
    simp only [Option.map, Option.some.injEq] at hstep
    exact ⟨hg, hstep.symm⟩

/-- A call keeps file and workers of a running session, unless it is `pause()`
arriving in `D_Waiting`. -/
theorem step_keeps_file (cfg : Config) (s s1 : DownloadThreadManager) (op : Op)
    (hinv : FileInv cfg s) (hal : pauseAllowed s op = true) (hstep : step cfg s op = some s1) :
    FileInv cfg s1 := by
  cases op with
  | downloadFile env url =>
    rcases step_downloadFile cfg env url s s1 hstep with h | h | h
    · rw [h.1]; exact hinv
    · intro hd
      rw [h] at hd
      rcases hd with hd | hd <;> exact absurd hd (by decide)
    · intro _
      exact ⟨h.2.1, h.2.2.1⟩
  | pause writeOk =>
    simp only [step, Option.some.injEq] at hstep
    simp only [pauseAllowed, decide_eq_true_eq] at hal
    rw [pause_state] at hstep
    by_cases hg : s.m_state ≠ .D_Download ∧ s.m_state ≠ .D_Waiting
    · rw [if_pos hg] at hstep
      rw [← hstep]; exact hinv
    · rw [if_neg hg] at hstep
      have hd : s.m_state = .D_Download := by
        by_contra hc
        exact hg ⟨hc, hal⟩
      obtain ⟨a, b⟩ := hinv (Or.inl hd)
      rw [← hstep]
      intro _
      exact ⟨a, by simpa using b⟩
  | restart =>
    simp only [step, Option.some.injEq] at hstep
    rw [restart_state] at hstep
    by_cases hg : s.m_state ≠ .D_Pause
    · rw [if_pos hg] at hstep
      rw [← hstep]; exact hinv
    · rw [if_neg hg] at hstep
      have hp : s.m_state = .D_Pause := by
        by_contra hc
        exact hg hc
      obtain ⟨a, b⟩ := hinv (Or.inr hp)
      rw [← hstep]
      intro _
      exact ⟨a, by simpa using b⟩
  | finishedSlot index =>
    rcases step_finishedSlot cfg index s s1 hstep with h | h
    · intro hd
      rw [h.2.2] at hd
      rcases hd with hd | hd <;> exact absurd hd (by decide)
    · rw [h.2]
      exact hinv
  | progressChangedSlot =>
    simp only [step, progressChangedSlot, Option.some.injEq] at hstep
    rw [← hstep]; exact hinv
  | errorSlot index errorString =>
    simp only [step, errorSlot, Option.some.injEq] at hstep
    by_cases hg : index < 0 ∨ index ≥ (s.m_threads.length : Int)
    · rw [if_pos hg] at hstep
      rw [← hstep]; exact hinv
    · rw [if_neg hg] at hstep
      rw [← hstep]
      intro hd
      obtain ⟨a, b⟩ := hinv hd
      exact ⟨a, by simpa using b⟩

/-- A call keeps the running count of a running session positive, unless it is
`pause()` arriving in `D_Waiting` or the last worker finishing in `D_Pause`. -/
theorem step_keeps_count (cfg : Config) (s s1 : DownloadThreadManager) (op : Op)
    (hinv : CountInv s) (hal : pauseAllowed s op = true) (hfin : finishAllowed s op = true)
    (hstep : step cfg s op = some s1) :
    CountInv s1 := by
  cases op with
  | downloadFile env url =>
    rcases step_downloadFile cfg env url s s1 hstep with h | h | h
    · rw [h.1]; exact hinv
    · intro hd
      rw [h] at hd
      rcases hd with hd | hd <;> exact absurd hd (by decide)
    · intro _
      obtain ⟨_, _, _, hc, h1, h15⟩ := h
      rw [hc]
      exact ⟨by omega, by omega⟩
  | pause writeOk =>
    simp only [step, Option.some.injEq] at hstep
    simp only [pauseAllowed, decide_eq_true_eq] at hal
    rw [pause_state] at hstep
    by_cases hg : s.m_state ≠ .D_Download ∧ s.m_state ≠ .D_Waiting
    · rw [if_pos hg] at hstep
      rw [← hstep]; exact hinv
    · rw [if_neg hg] at hstep
      have hd : s.m_state = .D_Download := by
        by_contra hc
        exact hg ⟨hc, hal⟩
      have hc := hinv (Or.inl hd)
      rw [← hstep]
      intro _
      exact hc
  | restart =>
    simp only [step, Option.some.injEq] at hstep
    rw [restart_state] at hstep
    by_cases hg : s.m_state ≠ .D_Pause
    · rw [if_pos hg] at hstep
      rw [← hstep]; exact hinv
    · rw [if_neg hg] at hstep
      have hp : s.m_state = .D_Pause := by
        by_contra hc
        exact hg hc
      have hc := hinv (Or.inr hp)
      rw [← hstep]
      intro _
      exact hc
  | finishedSlot index =>
    simp only [finishAllowed, decide_eq_true_eq] at hfin
    rcases step_finishedSlot cfg index s s1 hstep with h | h
    · intro hd
      rw [h.2.2] at hd
      rcases hd with hd | hd <;> exact absurd hd (by decide)
    · rw [h.2]
      intro hd
      have hd1 : s.m_state = .D_Download ∨ s.m_state = .D_Pause := hd
      obtain ⟨hpos, hlt⟩ := hinv hd1
      have hw : wrap32 (s.m_runningCount - 1) = s.m_runningCount - 1 :=
        wrap32_of_fits _ (by omega) (by omega)
      have hne : s.m_runningCount ≠ 1 := by
        intro h1
        rcases hd1 with hd2 | hd2
        · exact h.1 ⟨by rw [hw, h1]; rfl, hd2⟩
        · exact hfin ⟨hd2, h1⟩
      show 0 < wrap32 (s.m_runningCount - 1) ∧ wrap32 (s.m_runningCount - 1) < 2 ^ 31
      rw [hw]
      exact ⟨by omega, by omega⟩
  | progressChangedSlot =>
    simp only [step, progressChangedSlot, Option.some.injEq] at hstep
    rw [← hstep]; exact hinv
  | errorSlot index errorString =>
    simp only [step, errorSlot, Option.some.injEq] at hstep
    by_cases hg : index < 0 ∨ index ≥ (s.m_threads.length : Int)
    · rw [if_pos hg] at hstep
      rw [← hstep]; exact hinv
    · rw [if_neg hg] at hstep
      rw [← hstep]
      exact hinv

/-- A sequence of calls without `pause()` in `D_Waiting` keeps file and workers. -/
theorem run_keeps_file (cfg : Config) :
    ∀ (ops : List Op) (s s1 : DownloadThreadManager),
      FileInv cfg s → admissible pauseAllowed cfg s ops = true → run cfg s ops = some s1 →
      FileInv cfg s1 := by
  intro ops
  induction ops with
  | nil =>
    intro s s1 hinv _ hrun
    simp only [run, Option.some.injEq] at hrun
    rw [← hrun]; exact hinv
  | cons op ops ih =>
    intro s s1 hinv hadm hrun
    simp only [run] at hrun
    simp only [admissible, Bool.and_eq_true] at hadm
    cases hs : step cfg s op with
    | none => simp [hs] at hrun
    | some s2 =>
      simp only [hs] at hrun hadm
      exact ih s2 s1 (step_keeps_file cfg s s2 op hinv hadm.1 hs) hadm.2 hrun

/-- A sequence of calls without `pause()` in `D_Waiting` and without the last
worker finishing in `D_Pause` keeps the running count positive. -/
theorem run_keeps_count (cfg : Config) :
    ∀ (ops : List Op) (s s1 : DownloadThreadManager),
      CountInv s → admissible pauseAllowed cfg s ops = true →
      admissible finishAllowed cfg s ops = true → run cfg s ops = some s1 →
      CountInv s1 := by
  intro ops
  induction ops with
  | nil =>
    intro s s1 hinv _ _ hrun
    simp only [run, Option.some.injEq] at hrun
    rw [← hrun]; exact hinv
  | cons op ops ih =>
    intro s s1 hinv hadm hfin hrun
    simp only [run] at hrun
    simp only [admissible, Bool.and_eq_true] at hadm hfin
    cases hs : step cfg s op with
    | none => simp [hs] at hrun
    | some s2 =>
      simp only [hs] at hrun hadm hfin
      exact ih s2 s1 (step_keeps_count cfg s s2 op hinv hadm.1 hfin.1 hs) hadm.2 hfin.2 hrun

/-- C10 (amended): in every state reached from the initial one by a sequence
of `downloadFile`, `pause`, `restart`, `finishedSlot`, `progressChangedSlot` and
`errorSlot` calls in which `pause` never arrives in `D_Waiting`, if the state is
`D_Download` then `m_file` is set and there are exactly `THREADCOUNT` workers;
if moreover the last running worker never finishes while paused (no
`finishedSlot` arrives in `D_Pause` with running count `1`), the running count
is positive. -/
theorem downloading_invariant (cfg : Config) (totalSize readySize runningCount : Int)
    (ops : List Op) (s : DownloadThreadManager)
    (hpause : admissible pauseAllowed cfg (initial totalSize readySize runningCount) ops = true)
    (hrun : run cfg (initial totalSize readySize runningCount) ops = some s)
    (hd : s.m_state = .D_Download) :
    (s.m_file ≠ none ∧ (s.m_threads.length : Int) = cfg.THREADCOUNT)
    ∧ (admissible finishAllowed cfg (initial totalSize readySize runningCount) ops = true →
        0 < s.m_runningCount) := by
  have hf0 : FileInv cfg (initial totalSize readySize runningCount) := by
    intro h
    rcases h with h | h <;> exact absurd h (by simp [initial])
  have hc0 : CountInv (initial totalSize readySize runningCount) := by
    intro h
    rcases h with h | h <;> exact absurd h (by simp [initial])
  exact ⟨run_keeps_file cfg ops _ s hf0 hpause hrun (Or.inl hd),
    fun hfin => (run_keeps_count cfg ops _ s hc0 hpause hfin hrun (Or.inl hd)).1⟩

/-- Use of C10 with two workers. A session is paused, one of its two workers
finishes while paused, and it is restarted: file, both workers and a positive
count are there. When both workers finish while paused the second part does not
apply, the first still does. -/
theorem downloading_invariant_witness :
    (run twoThreadConfig (initial 0 0 0)
        [.downloadFile freshEnv "u", .progressChangedSlot, .pause true, .finishedSlot 0,
         .restart, .errorSlot 1 "timeout"]).map
        (fun s => (s.m_state, s.m_file, s.m_threads.length, s.m_runningCount))
      = some (.D_Download, some ⟨"file.bin"⟩, 2, 1)
    ∧ ((some (⟨"file.bin"⟩ : QFile)) ≠ none ∧ ((2 : Nat) : Int) = twoThreadConfig.THREADCOUNT)
    ∧ (0 : Int) < 1
    ∧ (run twoThreadConfig (initial 0 0 0)
        [.downloadFile freshEnv "u", .pause true, .finishedSlot 0, .finishedSlot 1,
         .restart]).map
        (fun s => (s.m_state, s.m_file, s.m_threads.length, s.m_runningCount))
      = some (.D_Download, some ⟨"file.bin"⟩, 2, 0)
    ∧ ((some (⟨"file.bin"⟩ : QFile)) ≠ none ∧ ((2 : Nat) : Int) = twoThreadConfig.THREADCOUNT) :=
  ⟨by decide,
   (downloading_invariant twoThreadConfig 0 0 0
    [.downloadFile freshEnv "u", .progressChangedSlot, .pause true, .finishedSlot 0,
     .restart, .errorSlot 1 "timeout"]
    { m_file := some ⟨"file.bin"⟩, m_state := .D_Download,
      m_threads := [⟨0, "u", ⟨"file.bin"⟩, 0, 500, 0, true⟩,
                    ⟨1, "u", ⟨"file.bin"⟩, 500, 1000, 0, false⟩],
      m_totalSize := 1000, m_readySize := 0, m_runningCount := 1 }
    (by decide) (by decide) rfl).1,
   (downloading_invariant twoThreadConfig 0 0 0
    [.downloadFile freshEnv "u", .progressChangedSlot, .pause true, .finishedSlot 0,
     .restart, .errorSlot 1 "timeout"]
    { m_file := some ⟨"file.bin"⟩, m_state := .D_Download,
      m_threads := [⟨0, "u", ⟨"file.bin"⟩, 0, 500, 0, true⟩,
                    ⟨1, "u", ⟨"file.bin"⟩, 500, 1000, 0, false⟩],
      m_totalSize := 1000, m_readySize := 0, m_runningCount := 1 }
    (by decide) (by decide) rfl).2 (by decide),
   by decide,
   (downloading_invariant twoThreadConfig 0 0 0
    [.downloadFile freshEnv "u", .pause true, .finishedSlot 0, .finishedSlot 1, .restart]
    { m_file := some ⟨"file.bin"⟩, m_state := .D_Download,
      m_threads := [⟨0, "u", ⟨"file.bin"⟩, 0, 500, 0, true⟩,
                    ⟨1, "u", ⟨"file.bin"⟩, 500, 1000, 0, true⟩],
      m_totalSize := 1000, m_readySize := 0, m_runningCount := 0 }
    (by decide) (by decide) rfl).1⟩

/-- Counterexample to C10 as stated: a failed probe followed by `pause` and
`restart` reaches `D_Download` with no file and no workers; and two workers
finishing while paused, followed by `restart`, reach `D_Download` with running
count zero. -/
theorem downloading_invariant_broken :
    (run sampleConfig (initial 0 0 0)
        [.downloadFile probeFailEnv "u", .pause true, .restart]).map
        (fun s => (s.m_state, s.m_file, s.m_threads.length))
      = some (.D_Download, none, 0)
    ∧ (run twoThreadConfig (initial 0 0 0)
        [.downloadFile freshEnv "u", .pause true, .finishedSlot 0, .finishedSlot 1,
         .restart]).map
        (fun s => (s.m_state, s.m_runningCount))
      = some (.D_Download, 0) := by
  decide

end TTK
